import Mathlib

/-!
Verification development for the person-recognition engine of
`src/execution.py` (class `Execution`).

The Python file is shallowly embedded as follows.

* Python `int(s)` is modelled by `pyInt?` (an optional sign followed by
  decimal digits; `none` models the `ValueError` raised on anything else),
  `str(i)` by `pyStr`, and `str.zfill` by `pyZfill` (sign-aware zero
  padding, no truncation).
* A dataset directory is a finite listing `List (String × Img)` pairing
  each file name with the image stored in that file; `os.listdir` order is
  the list order.  `cv2.imwrite` into the directory is `writeFile`
  (overwrite or append) and `os.remove` is `removeFile` (`none` models the
  `FileNotFoundError` raised on a missing file).
* The external collaborators (face detector, cropper/normalizer, encoder,
  nearest-neighbour engine, drawing) live in a `Config` record of abstract
  functions; the embedding is parametric in the image type `Img`, the
  embedding-vector type `E` and the fitted-engine type `Eng`.
* Fallible Python code (uncaught exceptions) returns `Option`: `none`
  means the call raises.
* The interactive loop body of `Execution.test` is one step function
  `stepIter` over a `SysState`; the while loop is `runLoop` over a finite
  trace of `(frame, key)` inputs.
-/

namespace PersonRec

/-- Decimal digit run for the model of Python `int`: `none` on an empty or
non-digit character list, otherwise the decimal value. -/
def digitsToNat? (cs : List Char) : Option Nat :=
  match cs with
  | [] => none
  | _ :: _ =>
    cs.foldl
      (fun acc c =>
        match acc with
        | none => none
        | some n => if c.isDigit then some (n * 10 + (c.toNat - 48)) else none)
      (some 0)

/-- Model of Python `int(s)` on the strings this program builds: an optional
sign followed by decimal digits; `none` models the `ValueError` raised on
anything else (for example `int('')` or `int('x')`). -/
def pyInt? (s : String) : Option Int :=
  match s.data with
  | '-' :: rest => (digitsToNat? rest).map (fun n => -(n : Int))
  | '+' :: rest => (digitsToNat? rest).map (fun n => (n : Int))
  | cs => (digitsToNat? cs).map (fun n => (n : Int))

/-- Model of Python `str` on integers. -/
def pyStr (i : Int) : String := toString i

/-- Model of Python `str.zfill(width)`: left-pad with `'0'` up to `width`,
inserting the padding after a leading sign, never truncating. -/
def pyZfill (s : String) (width : Nat) : String :=
  match s.data with
  | [] => String.mk (List.replicate width '0')
  | c :: rest =>
    if c = '-' ∨ c = '+' then
      String.mk (c :: (List.replicate (width - (rest.length + 1)) '0' ++ rest))
    else
      String.mk (List.replicate (width - (rest.length + 1)) '0' ++ (c :: rest))

/-- Model of Python `s.split('.')` by structural recursion over the
characters: cut at every `'.'`, keeping empty pieces, never dropping the
final piece (the result is always non-empty). -/
def splitDotGo : List Char → List Char → List String
  | [], acc => [String.mk acc.reverse]
  | c :: rest, acc =>
    if c = '.' then String.mk acc.reverse :: splitDotGo rest []
    else splitDotGo rest (c :: acc)

/-- Model of Python `file.split('.')` as used on file names. -/
def splitDot (s : String) : List String := splitDotGo s.data []

/-- Model of `os.path.join` for the two-argument uses in `execution.py`. -/
def pathJoin (a b : String) : String := a ++ "/" ++ b

/-- The file-name format `'\x7b\x7d.\x7b\x7d.jpg'.format(u, n)` used by
`find_path` and `find_all_files`. -/
def mkFileName (u n : String) : String := u ++ "." ++ n ++ ".jpg"

/-- A detector bounding box `(xmin, ymin, xmax, ymax)`. -/
abbrev BBox := Int × Int × Int × Int

/-- A dataset directory: the finite listing of file names paired with the
image content stored under each name. -/
abbrev Dir (Img : Type) := List (String × Img)

/-- Modelled from the spec: the `Face` sample record of the external
`data_acquisition` module (not under `src/`): an `image`, an `embedding`
that is initially absent, and an integer identity label `uid` (spec section
3, "Sample (Face)").  The only assignment to `embedding` in `execution.py`
stores the entire result of `encode([face.image])`, so the field holds a
whole list of embedding vectors. -/
structure Face (Img E : Type) where
  image : Img
  embedding : Option (List E) := none
  uid : Int

/-- Modelled from the spec: the `Warehouse` of the external
`data_acquisition` module (not under `src/`): an ordered collection of
samples; `add` appends and insertion order is iteration order (spec
section 4.1). -/
structure Warehouse (Img E : Type) where
  faces : List (Face Img E) := []

/-- Modelled from the spec: a `Person` is a derived grouping carrying the
uid of a distinct identity present in a warehouse (spec section 3). -/
structure Person where
  uid : Int

variable {Img E Eng : Type}

/-- Modelled from the spec: `Warehouse.add` appends a sample (spec section
4.1). -/
def Warehouse.add (wh : Warehouse Img E) (f : Face Img E) : Warehouse Img E :=
  ⟨wh.faces ++ [f]⟩

/-- Modelled from the spec: `Warehouse.get_faces` is the ordered sequence
of all samples (spec section 4.1). -/
def Warehouse.get_faces (wh : Warehouse Img E) : List (Face Img E) := wh.faces

/-- Modelled from the spec: `Warehouse.get_persons` produces one `Person`
per distinct uid present in the warehouse (spec section 4.1). -/
def Warehouse.get_persons (wh : Warehouse Img E) : List Person :=
  ((wh.faces.map Face.uid).dedup).map Person.mk

/-- The external collaborator interfaces of spec section 6, consumed but
not defined by `execution.py`: frame shape, the face detector, the
cropper/normalizer, the encoder, the nearest-neighbour engine
(`knn_fit` / `knn_classify` of the external `model_engineering` module)
and the `cv2` drawing composite used by `visualize`. -/
structure Config (Img E Eng : Type) where
  pkg_dir : String
  shape0 : Img → Nat
  shape1 : Img → Nat
  detect : Img → List BBox
  crop : Img → BBox → Img
  process : Img → Img
  encode : List Img → List E
  knn_classify : Eng → E → Int
  knn_fit : Warehouse Img E → Eng
  draw : Img → BBox → Int → Img

/-- The training dataset directory path
`os.path.join(pkg_dir, 'dataset', 'train')`. -/
def trn_dir (cfg : Config Img E Eng) : String :=
  pathJoin (pathJoin cfg.pkg_dir "dataset") "train"

/-- The test dataset directory path
`os.path.join(pkg_dir, 'dataset', 'test')`. -/
def tst_dir (cfg : Config Img E Eng) : String :=
  pathJoin (pathJoin cfg.pkg_dir "dataset") "test"

/-- The while loop `new_uid = 0; while new_uid in existing_uids:
new_uid += 1` of `Execution.find_path`, written with explicit fuel (the
Python loop terminates because the uid list is finite). -/
def nextFreeUid (uids : List Int) : Nat → Nat → Nat
  | 0, cur => cur
  | fuel + 1, cur =>
    if (cur : Int) ∈ uids then nextFreeUid uids fuel (cur + 1) else cur

/-- The new uid chosen by `Execution.find_path` for the sentinel uid `-1`:
the while loop run from `0` with sufficient fuel. -/
def allocNewUid (uids : List Int) : Nat := nextFreeUid uids (uids.length + 1) 0

/-- The directory-scanning count loop shared by `Execution.find_path`
(uid not `-1`) and `Execution.find_all_files`: for every listed file whose
last dot-separated name component is `'jpg'`, Python evaluates
`int(name_parts[0])` (so an unparseable first component raises, modelled by
`none`) and increments the count when it equals the query uid. -/
def countSamplesGo (uid : Int) : Dir Img → Nat → Option Nat
  | [], acc => some acc
  | (name, _) :: rest, acc =>
    let parts := splitDot name
    if parts.getLastD "" = "jpg" then
      match pyInt? (parts.headD "") with
      | none => none
      | some v => countSamplesGo uid rest (if v = uid then acc + 1 else acc)
    else countSamplesGo uid rest acc

/-- `samples_num` as computed by `Execution.find_path` and
`Execution.find_all_files` over the training directory listing. -/
def count_samples (dir : Dir Img) (uid : Int) : Option Nat :=
  countSamplesGo uid dir 0

/-- `Execution.find_path` up to the constant directory prefix: the file
name it chooses inside the training directory.  For the sentinel uid `-1`
it allocates a fresh uid from the warehouse persons and sample index `0`;
otherwise it counts the stored samples of the uid (which can raise, hence
`Option`) and uses that count as the sample index. -/
def find_path_name (dir : Dir Img) (wh : Warehouse Img E) (uid : Int) :
    Option String :=
  if uid = -1 then
    let existing_uids := (wh.get_persons).map Person.uid
    let new_uid := allocNewUid existing_uids
    some (mkFileName (pyZfill (pyStr (new_uid : Int)) 4) (pyZfill (pyStr 0) 4))
  else
    (count_samples dir uid).map
      (fun n => mkFileName (pyZfill (pyStr uid) 4) (pyZfill (pyStr (n : Int)) 4))

/-- `Execution.find_path`: the full image path
`os.path.join(dataset_dir, file_name)`. -/
def find_path (cfg : Config Img E Eng) (dir : Dir Img) (wh : Warehouse Img E)
    (uid : Int) : Option String :=
  (find_path_name dir wh uid).map (pathJoin (trn_dir cfg))

/-- `Execution.find_all_files` up to the constant directory prefix: count
the stored samples of the uid, then rebuild the file name of every sample
index in `range(samples_num)`. -/
def find_all_files_names (dir : Dir Img) (uid : Int) : Option (List String) :=
  (count_samples dir uid).map
    (fun n =>
      (List.range n).map
        (fun k => mkFileName (pyZfill (pyStr uid) 4) (pyZfill (pyStr (k : Int)) 4)))

/-- `Execution.find_all_files`: the full paths
`os.path.join(dataset_dir, file_name)`. -/
def find_all_files (cfg : Config Img E Eng) (dir : Dir Img) (uid : Int) :
    Option (List String) :=
  (find_all_files_names dir uid).map (List.map (pathJoin (trn_dir cfg)))

/-- The inner `for bbox in bboxes` loop of `Execution.create_wh`: for each
detected bounding box, crop, normalize, parse the uid label from the file
name's first component (`int(name_parts[0])`, evaluated inside the loop, so
a file in which no face is detected never parses and never raises) and
append the face to the warehouse. -/
def entryFacesGo (cfg : Config Img E Eng) (image : Img) (parts : List String) :
    Warehouse Img E → List BBox → Option (Warehouse Img E)
  | wh, [] => some wh
  | wh, bbox :: rest =>
    let face_img := cfg.process (cfg.crop image bbox)
    match pyInt? (parts.headD "") with
    | none => none
    | some label => entryFacesGo cfg image parts (wh.add ⟨face_img, none, label⟩) rest

/-- The outer `for file in os.listdir(directory)` loop of
`Execution.create_wh`, threading the growing warehouse. -/
def create_wh_go (cfg : Config Img E Eng) :
    Warehouse Img E → Dir Img → Option (Warehouse Img E)
  | wh, [] => some wh
  | wh, (name, image) :: rest =>
    let parts := splitDot name
    if parts.getLastD "" = "jpg" then
      match entryFacesGo cfg image parts wh (cfg.detect image) with
      | none => none
      | some wh' => create_wh_go cfg wh' rest
    else create_wh_go cfg wh rest

/-- `Execution.create_wh`: read a dataset directory and build a fresh
warehouse from the faces detected in its `.jpg` files. -/
def create_wh (cfg : Config Img E Eng) (dir : Dir Img) :
    Option (Warehouse Img E) :=
  create_wh_go cfg ⟨[]⟩ dir

/-- The re-encoding loop of `Execution.acquire_data`:
`for face in wh.get_faces(): face.embedding = encode([face.image])` — note
that the whole list returned by `encode` is stored. -/
def encodeWh (cfg : Config Img E Eng) (wh : Warehouse Img E) :
    Warehouse Img E :=
  ⟨wh.faces.map (fun f => { f with embedding := some (cfg.encode [f.image]) })⟩

/-- `Execution.acquire_data`: rebuild the training and test warehouses from
their dataset directories and re-encode every sample. -/
def acquire_data (cfg : Config Img E Eng) (trnDir tstDir : Dir Img) :
    Option (Warehouse Img E × Warehouse Img E) :=
  match create_wh cfg trnDir, create_wh cfg tstDir with
  | some t, some u => some (encodeWh cfg t, encodeWh cfg u)
  | _, _ => none

/-- `Execution.visualize`: return the image unchanged when the bounding box
is `None`, otherwise the `cv2` rectangle-and-text overlay (the external
drawing composite `Config.draw`). -/
def visualize (cfg : Config Img E Eng) (image : Img) (bbox : Option BBox)
    (uid : Int) : Img :=
  match bbox with
  | none => image
  | some b => cfg.draw image b uid

/-- `Execution.id`: normalize the input image, encode it, and classify the
first element `encode([face_image])[0]` of the encoder's output (`none`
models the `IndexError` raised if the encoder returns an empty sequence). -/
def id (cfg : Config Img E Eng) (eng : Eng) (image : Img) : Option Int :=
  let face_image := cfg.process image
  ((cfg.encode [face_image]).head?).map (cfg.knn_classify eng)

/-- One iteration of the `for bbox in bboxes` loop of `Execution.test`:
crop, normalize, encode, classify `embedding[0]`, annotate the frame, and
make this face and its predicted uid the selected candidate. -/
def faceStep (cfg : Config Img E Eng) (eng : Eng)
    (acc : Img × Option Img × Int) (bbox : BBox) :
    Option (Img × Option Img × Int) :=
  let image := acc.1
  let cropped_face := cfg.crop image bbox
  let face := cfg.process cropped_face
  let embedding := cfg.encode [face]
  match embedding.head? with
  | none => none
  | some e =>
    let uid := cfg.knn_classify eng e
    some (visualize cfg image (some bbox) uid, some cropped_face, uid)

/-- The whole `for bbox in bboxes` loop of `Execution.test`, threading the
annotated frame and the selected candidate `(selected_face, selected_uid)`
(initially `(None, -1)`). -/
def faceLoop (cfg : Config Img E Eng) (eng : Eng) :
    Img × Option Img × Int → List BBox → Option (Img × Option Img × Int)
  | acc, [] => some acc
  | acc, bbox :: rest =>
    match faceStep cfg eng acc bbox with
    | none => none
    | some acc' => faceLoop cfg eng acc' rest

/-- The mutable state of `Execution.test`: the two dataset directories, the
two warehouses, the fitted engine, how many times the capture source's
`release()` has been called, the last frame written to `'face.jpg'`, and
the loop's `stop` flag. -/
structure SysState (Img E Eng : Type) where
  trnDir : Dir Img
  tstDir : Dir Img
  trn_wh : Warehouse Img E
  tst_wh : Warehouse Img E
  engine : Eng
  releaseCalls : Nat
  savedFace : Option Img
  stopped : Bool

/-- `cv2.imwrite` into a dataset directory: overwrite the file if the name
exists, otherwise append a new listing entry. -/
def writeFile (dir : Dir Img) (name : String) (image : Img) : Dir Img :=
  if dir.any (fun e => e.1 == name) then
    dir.map (fun e => if e.1 = name then (name, image) else e)
  else dir ++ [(name, image)]

/-- `os.remove` on a dataset directory: `none` models the
`FileNotFoundError` raised when no file of that name exists. -/
def removeFile (dir : Dir Img) (name : String) : Option (Dir Img) :=
  if dir.any (fun e => e.1 == name) then
    some (dir.filter (fun e => e.1 != name))
  else none

/-- The `for path in images_paths: os.remove(path)` loop of the delete
branch of `Execution.test`. -/
def removeAll : Dir Img → List String → Option (Dir Img)
  | dir, [] => some dir
  | dir, n :: rest =>
    match removeFile dir n with
    | none => none
    | some dir' => removeAll dir' rest

/-- One iteration of the `while not stop` loop of `Execution.test`, given
the frame returned by `get_frame()` (`none` for an absent frame) and the
key returned by `waitKey` (27 = ESC, 115 = `'s'`, 97 = `'a'`,
100 = `'d'`).  `none` models an uncaught exception escaping the loop. -/
def stepIter (cfg : Config Img E Eng) (s : SysState Img E Eng)
    (frame : Option Img) (key : Int) : Option (SysState Img E Eng) :=
  match frame with
  | none => some s
  | some image =>
    if cfg.shape0 image = 0 ∨ cfg.shape1 image = 0 then some s
    else
      match faceLoop cfg s.engine (image, none, -1) (cfg.detect image) with
      | none => none
      | some (image', selected_face, selected_uid) =>
        if key = 27 then
          some { s with releaseCalls := s.releaseCalls + 1, stopped := true }
        else if key = 115 then
          some { s with savedFace := some image' }
        else if key = 97 then
          match selected_face with
          | none => some s
          | some face =>
            match find_path_name s.trnDir s.trn_wh selected_uid with
            | none => none
            | some name =>
              let trnDir' := writeFile s.trnDir name face
              match acquire_data cfg trnDir' s.tstDir with
              | none => none
              | some (t, u) =>
                some { s with trnDir := trnDir', trn_wh := t, tst_wh := u,
                              engine := cfg.knn_fit t }
        else if key = 100 then
          if selected_uid = -1 then some s
          else
            match find_all_files_names s.trnDir selected_uid with
            | none => none
            | some names =>
              match removeAll s.trnDir names with
              | none => none
              | some trnDir' =>
                match acquire_data cfg trnDir' s.tstDir with
                | none => none
                | some (t, u) =>
                  some { s with trnDir := trnDir', trn_wh := t, tst_wh := u,
                                engine := cfg.knn_fit t }
        else some s

/-- The `while not stop` loop of `Execution.test` over a finite trace of
`(frame, key)` inputs. -/
def runLoop (cfg : Config Img E Eng) :
    SysState Img E Eng → List (Option Img × Int) → Option (SysState Img E Eng)
  | s, [] => some s
  | s, (frame, key) :: rest =>
    if s.stopped then some s
    else
      match stepIter cfg s frame key with
      | none => none
      | some s' => runLoop cfg s' rest

/-- The Bool test "this directory entry is a `.jpg` file that parses to the
query uid" counted by the scanning loops. -/
def matchesUid (uid : Int) (name : String) : Bool :=
  ((splitDot name).getLastD "" == "jpg") &&
    (pyInt? ((splitDot name).headD "") == some uid)

/-- Well-formedness of a directory listing for the counting loops: every
file whose last dot-separated name component is `'jpg'` has an
integer-parseable first component, so the Python scan raises no
`ValueError`. -/
def jpgParseOK (dir : Dir Img) : Prop :=
  ∀ e ∈ dir, (splitDot e.1).getLastD "" = "jpg" →
    (pyInt? ((splitDot e.1).headD "")).isSome = true

instance (dir : Dir Img) : Decidable (jpgParseOK dir) := by
  unfold jpgParseOK
  infer_instance

/-- A concrete collaborator configuration used to exercise the embedding on
closed inputs: one detected box per frame, identity crop and normalize,
unit embeddings, a classifier that always answers uid 0, and a fit that
records the gallery's uid sequence. -/
def demoCfg : Config Nat Unit (List Int) where
  pkg_dir := "pkg"
  shape0 := fun _ => 1
  shape1 := fun _ => 1
  detect := fun _ => [(0, 0, 1, 1)]
  crop := fun i _ => i
  process := fun i => i
  encode := fun l => l.map (fun _ => ())
  knn_classify := fun _ _ => 0
  knn_fit := fun wh => wh.faces.map Face.uid
  draw := fun i _ _ => i

/-- `demoCfg` with a detector that finds two faces in every frame. -/
def demoCfgTwo : Config Nat Unit (List Int) :=
  { demoCfg with detect := fun _ => [(0, 0, 1, 1), (2, 2, 3, 3)] }

/-- `demoCfg` with a detector that finds no face in any frame. -/
def demoCfgNone : Config Nat Unit (List Int) :=
  { demoCfg with detect := fun _ => [] }

/-- `demoCfg` with frames of zero height. -/
def demoCfgZero : Config Nat Unit (List Int) :=
  { demoCfg with shape0 := fun _ => 0 }

/-- A concrete initial session state over empty dataset directories. -/
def demoState : SysState Nat Unit (List Int) where
  trnDir := []
  tstDir := []
  trn_wh := ⟨[]⟩
  tst_wh := ⟨[]⟩
  engine := []
  releaseCalls := 0
  savedFace := none
  stopped := false

/-- A concrete training warehouse whose persons carry uids 0, 1 and 3. -/
def wh013 : Warehouse Nat Unit :=
  ⟨[⟨10, none, 0⟩, ⟨11, none, 1⟩, ⟨13, none, 3⟩]⟩

/-- A concrete training directory holding three contiguous samples of
uid 1. -/
def dir3jpg : Dir Nat :=
  [("0001.0000.jpg", 7), ("0001.0001.jpg", 8), ("0001.0002.jpg", 9)]

/-- A concrete training directory holding a single sample file of uid 0. -/
def demoDirOne : Dir Nat := [("0000.0000.jpg", 42)]

lemma nextFreeUid_spec (uids : List Int) :
    ∀ (fuel cur : Nat), (∃ k : Nat, cur ≤ k ∧ k < cur + fuel ∧ (k : Int) ∉ uids) →
      cur ≤ nextFreeUid uids fuel cur ∧
        ((nextFreeUid uids fuel cur : Int) ∉ uids) ∧
        ∀ m : Nat, cur ≤ m → m < nextFreeUid uids fuel cur → (m : Int) ∈ uids
  | 0, cur, h => by
    obtain ⟨k, hk1, hk2, _⟩ := h
    exact absurd hk2 (by omega)
  | fuel + 1, cur, h => by
    simp only [nextFreeUid]
    by_cases hc : (cur : Int) ∈ uids
    · simp only [if_pos hc]
      obtain ⟨k, hk1, hk2, hk3⟩ := h
      have hkc : k ≠ cur := by rintro rfl; exact hk3 hc
      have ih := nextFreeUid_spec uids fuel (cur + 1) ⟨k, by omega, by omega, hk3⟩
      refine ⟨by omega, ih.2.1, ?_⟩
      intro m hm1 hm2
      rcases Nat.eq_or_lt_of_le hm1 with rfl | hlt
      · exact hc
      · exact ih.2.2 m (by omega) hm2
    · simp only [if_neg hc]
      exact ⟨le_refl _, hc, fun m hm1 hm2 => absurd hm2 (by omega)⟩

lemma exists_unused_uid (uids : List Int) :
    ∃ k : Nat, k < uids.length + 1 ∧ (k : Int) ∉ uids := by
  by_contra h
  push_neg at h
  have hsub : (Finset.range (uids.length + 1)).image (fun n : Nat => (n : Int)) ⊆
      uids.toFinset := by
    intro x hx
    simp only [Finset.mem_image, Finset.mem_range] at hx
    obtain ⟨n, hn, rfl⟩ := hx
    exact List.mem_toFinset.mpr (h n hn)
  have hcard := Finset.card_le_card hsub
  rw [Finset.card_image_of_injective _ Nat.cast_injective, Finset.card_range] at hcard
  have hlen := uids.toFinset_card_le
  omega

lemma allocNewUid_spec (uids : List Int) :
    ((allocNewUid uids : Int) ∉ uids) ∧
      ∀ m : Nat, m < allocNewUid uids → (m : Int) ∈ uids := by
  obtain ⟨k, hk1, hk2⟩ := exists_unused_uid uids
  have h := nextFreeUid_spec uids (uids.length + 1) 0 ⟨k, Nat.zero_le _, by omega, hk2⟩
  exact ⟨h.2.1, fun m hm => h.2.2 m (Nat.zero_le _) hm⟩

lemma countSamplesGo_eq (uid : Int) :
    ∀ (dir : Dir Img) (acc : Nat), jpgParseOK dir →
      countSamplesGo uid dir acc =
        some (acc + dir.countP (fun e => matchesUid uid e.1))
  | [], acc, _ => by simp [countSamplesGo]
  | (name, img) :: rest, acc, h => by
    have hrest : jpgParseOK rest := fun e he hj => h e (List.mem_cons_of_mem _ he) hj
    simp only [countSamplesGo]
    by_cases hjpg : (splitDot name).getLastD "" = "jpg"
    · rw [if_pos hjpg]
      have hsome := h (name, img) (List.mem_cons_self _ _) hjpg
      obtain ⟨v, hv⟩ := Option.isSome_iff_exists.mp hsome
      simp only [hv]
      rw [countSamplesGo_eq uid rest _ hrest, List.countP_cons]
      have hjpgb : ((splitDot name).getLastD "" == "jpg") = true :=
        beq_iff_eq.mpr hjpg
      by_cases hveq : v = uid
      · have hmatch : matchesUid uid name = true := by
          unfold matchesUid
          rw [hjpgb, Bool.true_and, hv, hveq]
          exact beq_self_eq_true _
        rw [Option.some.injEq]
        simp only [hmatch, if_pos hveq]
        simp only [if_true]
        omega
      · have hmatch : matchesUid uid name = false := by
          unfold matchesUid
          rw [hjpgb, Bool.true_and, hv]
          exact beq_eq_false_iff_ne.mpr (fun hc => hveq (Option.some.inj hc))
        rw [Option.some.injEq]
        simp only [hmatch, if_neg hveq]
        simp only [Bool.false_eq_true, if_false]
        omega
    · rw [if_neg hjpg]
      rw [countSamplesGo_eq uid rest _ hrest, List.countP_cons]
      have hmatch : matchesUid uid name = false := by
        unfold matchesUid
        rw [beq_eq_false_iff_ne.mpr hjpg, Bool.false_and]
      rw [Option.some.injEq]
      simp only [hmatch, Bool.false_eq_true, if_false]
      omega

lemma count_samples_eq (dir : Dir Img) (uid : Int) (h : jpgParseOK dir) :
    count_samples dir uid = some (dir.countP (fun e => matchesUid uid e.1)) := by
  simpa [count_samples] using countSamplesGo_eq uid dir 0 h

/-- Claim C2: for every training gallery, the allocator asked for a path
with the sentinel uid `-1` assigns as the new uid the smallest non-negative
integer not among the uids of the persons currently in the training
warehouse (the first gap) together with sample index `0`; in particular,
for existing uids 0, 1 and 3 it assigns uid 2 with sample index 0. -/
theorem C2_new_identity_allocation :
    (∀ (Img E Eng : Type) (cfg : Config Img E Eng) (dir : Dir Img)
        (wh : Warehouse Img E),
      ((allocNewUid (wh.get_persons.map Person.uid) : Int) ∉
          wh.get_persons.map Person.uid) ∧
        (∀ m : Nat, m < allocNewUid (wh.get_persons.map Person.uid) →
          (m : Int) ∈ wh.get_persons.map Person.uid) ∧
        find_path cfg dir wh (-1) =
          some (pathJoin (trn_dir cfg)
            (mkFileName
              (pyZfill (pyStr ((allocNewUid (wh.get_persons.map Person.uid) : Nat) : Int)) 4)
              (pyZfill (pyStr 0) 4)))) ∧
      find_path demoCfg ([] : Dir Nat) wh013 (-1) =
        some "pkg/dataset/train/0002.0000.jpg" := by
  constructor
  · intro Img E Eng cfg dir wh
    obtain ⟨h1, h2⟩ := allocNewUid_spec (wh.get_persons.map Person.uid)
    exact ⟨h1, h2, by simp [find_path, find_path_name]⟩
  · decide

/-- Claim C3 counterexample: in a training directory state holding a file
`x.jpg` whose first name component does not parse as an integer, the
allocator asked for a path with uid 0 raises a `ValueError` (modelled by
`none`) instead of assigning sample index 0. -/
theorem C3_counterexample :
    find_path demoCfg ([("x.jpg", 7)] : Dir Nat)
      (Warehouse.mk ([] : List (Face Nat Unit))) 0 = none := by decide

/-- Claim C3 as amended: for every non-negative uid and every state of the
training directory in which each file whose last dot-separated name
component is `'jpg'` has an integer-parseable first component, the
allocator counts the `.jpg` files whose first component parses to that uid
and assigns sample index equal to that count. -/
theorem C3_existing_identity_allocation {Img E Eng : Type}
    (cfg : Config Img E Eng) (dir : Dir Img) (wh : Warehouse Img E)
    (uid : Int) (hnn : 0 ≤ uid) (hwf : jpgParseOK dir) :
    find_path cfg dir wh uid =
      some (pathJoin (trn_dir cfg)
        (mkFileName (pyZfill (pyStr uid) 4)
          (pyZfill (pyStr ((dir.countP (fun e => matchesUid uid e.1) : Nat) : Int)) 4))) := by
  have hne : ¬ uid = -1 := by omega
  simp [find_path, find_path_name, if_neg hne, count_samples_eq dir uid hwf]

/-- Witness for the amended claim C3: uid 1 with three existing samples
gets sample index 3. -/
theorem C3_existing_identity_allocation_witness :
    (0 : Int) ≤ 1 ∧ jpgParseOK dir3jpg ∧
      find_path demoCfg dir3jpg (Warehouse.mk ([] : List (Face Nat Unit))) 1 =
        some "pkg/dataset/train/0001.0003.jpg" :=
  ⟨by decide, by decide,
    (C3_existing_identity_allocation demoCfg dir3jpg ⟨[]⟩ 1 (by decide)
      (by decide)).trans (by decide)⟩

/-- Claim C4: deletion enumeration returns exactly the paths of the
identifiers `(uid, k)` for `k` in `[0, count)`, where `count` is the number
of `.jpg` files of the training directory whose first name component parses
to the uid, each formatted with 4-digit zero-padded components joined by
`'.'` and extension `.jpg`. -/
theorem C4_deletion_enumeration {Img E Eng : Type} (cfg : Config Img E Eng)
    (dir : Dir Img) (uid : Int) (hwf : jpgParseOK dir) :
    find_all_files cfg dir uid =
      some ((List.range (dir.countP (fun e => matchesUid uid e.1))).map
        (fun k => pathJoin (trn_dir cfg)
          (mkFileName (pyZfill (pyStr uid) 4) (pyZfill (pyStr (k : Int)) 4)))) := by
  simp [find_all_files, find_all_files_names, count_samples_eq dir uid hwf,
    List.map_map, Function.comp]

/-- Witness for claim C4: deleting uid 1 with three contiguous samples
enumerates exactly the paths of `(1,0)`, `(1,1)` and `(1,2)`. -/
theorem C4_deletion_enumeration_witness :
    jpgParseOK dir3jpg ∧
      find_all_files demoCfg dir3jpg 1 =
        some ["pkg/dataset/train/0001.0000.jpg", "pkg/dataset/train/0001.0001.jpg",
          "pkg/dataset/train/0001.0002.jpg"] :=
  ⟨by decide, (C4_deletion_enumeration demoCfg dir3jpg 1 (by decide)).trans (by decide)⟩

lemma faceLoop_append (cfg : Config Img E Eng) (eng : Eng) (b : BBox) :
    ∀ (bs : List BBox) (acc : Img × Option Img × Int),
      faceLoop cfg eng acc (bs ++ [b]) =
        (faceLoop cfg eng acc bs).bind (fun a => faceStep cfg eng a b)
  | [], acc => by
    simp only [List.nil_append, faceLoop, Option.some_bind]
    cases faceStep cfg eng acc b <;> rfl
  | bbox :: rest, acc => by
    simp only [List.cons_append, faceLoop]
    cases faceStep cfg eng acc bbox with
    | none => rfl
    | some a => exact faceLoop_append cfg eng b rest a

/-- Claim C5: an absent frame, or a frame of zero height or zero width, is
discarded: the iteration mutates nothing (directories, warehouses, engine,
release count and stop flag are all unchanged) and does not raise, so the
loop continues with the next frame. -/
theorem C5_degenerate_frame_skipped {Img E Eng : Type} (cfg : Config Img E Eng)
    (s : SysState Img E Eng) (key : Int) :
    stepIter cfg s none key = some s ∧
      ∀ img : Img, cfg.shape0 img = 0 ∨ cfg.shape1 img = 0 →
        stepIter cfg s (some img) key = some s := by
  refine ⟨rfl, fun img h => ?_⟩
  simp only [stepIter, if_pos h]

/-- Witness for claim C5 at a zero-height frame. -/
theorem C5_degenerate_frame_skipped_witness :
    (demoCfgZero.shape0 5 = 0 ∨ demoCfgZero.shape1 5 = 0) ∧
      stepIter demoCfgZero demoState (some 5) 97 = some demoState :=
  ⟨Or.inl rfl,
    (C5_degenerate_frame_skipped demoCfgZero demoState 97).2 5 (Or.inl rfl)⟩

/-- Claim C6: with at least one detected bounding box, the selected
candidate after the per-face loop is the cropped face and predicted uid
computed for the last bounding box of the detector's returned order; with
zero bounding boxes the selected face is `None` and the selected uid
`-1`. -/
theorem C6_last_detection_selected :
    (∀ (Img E Eng : Type) (cfg : Config Img E Eng) (eng : Eng) (img : Img)
        (bs : List BBox) (b : BBox) (i0 : Img) (f0 : Option Img) (u0 : Int)
        (res : Img × Option Img × Int),
      faceLoop cfg eng (img, none, -1) bs = some (i0, f0, u0) →
      faceLoop cfg eng (img, none, -1) (bs ++ [b]) = some res →
      ∃ e, (cfg.encode [cfg.process (cfg.crop i0 b)]).head? = some e ∧
        res.2.1 = some (cfg.crop i0 b) ∧
        res.2.2 = cfg.knn_classify eng e) ∧
      ∀ (Img E Eng : Type) (cfg : Config Img E Eng) (eng : Eng) (img : Img),
        faceLoop cfg eng (img, none, -1) [] = some (img, none, -1) := by
  constructor
  · intro Img E Eng cfg eng img bs b i0 f0 u0 res h1 h2
    rw [faceLoop_append cfg eng b bs _, h1] at h2
    simp only [Option.bind_some, Option.some_bind] at h2
    simp only [faceStep] at h2
    cases he : (cfg.encode [cfg.process (cfg.crop i0 b)]).head? with
    | none => rw [he] at h2; exact Option.noConfusion h2
    | some e =>
      rw [he] at h2
      obtain rfl := Option.some.inj h2
      exact ⟨e, rfl, rfl, rfl⟩
  · intro Img E Eng cfg eng img
    rfl

/-- Witness for claim C6 on a one-box frame: the selection is the crop and
classification of that last (single) box. -/
theorem C6_last_detection_selected_witness :
    faceLoop demoCfg ([] : List Int) ((5 : Nat), none, -1) [] =
        some (5, none, -1) ∧
      faceLoop demoCfg ([] : List Int) ((5 : Nat), none, -1)
        ([] ++ [((0 : Int), (0 : Int), (1 : Int), (1 : Int))]) =
        some (5, some 5, 0) ∧
      ∃ e, (demoCfg.encode [demoCfg.process (demoCfg.crop 5 (0, 0, 1, 1))]).head? =
          some e ∧
        (some (5 : Nat), (0 : Int)).1 = some (demoCfg.crop 5 (0, 0, 1, 1)) ∧
        (some (5 : Nat), (0 : Int)).2 = demoCfg.knn_classify [] e :=
  ⟨rfl, rfl,
    C6_last_detection_selected.1 Nat Unit (List Int) demoCfg [] 5 []
      (0, 0, 1, 1) 5 none (-1) (5, some 5, 0) rfl rfl⟩

/-- Claim C7: when the per-face loop selected no candidate (selected face
`None`, selected uid `-1`), the enroll key and the delete key are both
no-ops: the state (directories, warehouses, engine) is unchanged and
nothing is raised. -/
theorem C7_no_candidate_noop {Img E Eng : Type} (cfg : Config Img E Eng)
    (s : SysState Img E Eng) (img i0 : Img)
    (hs0 : cfg.shape0 img ≠ 0) (hs1 : cfg.shape1 img ≠ 0)
    (hsel : faceLoop cfg s.engine (img, none, -1) (cfg.detect img) =
      some (i0, none, -1)) :
    stepIter cfg s (some img) 97 = some s ∧
      stepIter cfg s (some img) 100 = some s := by
  constructor <;> simp [stepIter, hsel, hs0, hs1]

/-- Witness for claim C7 on a frame with zero detections. -/
theorem C7_no_candidate_noop_witness :
    demoCfgNone.shape0 5 ≠ 0 ∧ demoCfgNone.shape1 5 ≠ 0 ∧
      faceLoop demoCfgNone demoState.engine ((5 : Nat), none, -1)
        (demoCfgNone.detect 5) = some (5, none, -1) ∧
      stepIter demoCfgNone demoState (some 5) 97 = some demoState ∧
      stepIter demoCfgNone demoState (some 5) 100 = some demoState :=
  ⟨by decide, by decide, rfl,
    C7_no_candidate_noop demoCfgNone demoState 5 5 (by decide) (by decide) rfl⟩

/-- Claim C1: after an enroll command (key `'a'` with a selected face) or a
delete command (key `'d'` with a selected uid) completes, the resulting
state has both warehouses rebuilt by `create_wh` from the current source
directories with every sample re-encoded, and the engine re-fitted on the
rebuilt training warehouse — all inside the same loop iteration, before any
further frame is processed. -/
theorem C1_mutation_reacquire_refit :
    (∀ (Img E Eng : Type) (cfg : Config Img E Eng) (s s' : SysState Img E Eng)
        (img i0 face : Img) (u0 : Int),
      cfg.shape0 img ≠ 0 → cfg.shape1 img ≠ 0 →
      faceLoop cfg s.engine (img, none, -1) (cfg.detect img) =
        some (i0, some face, u0) →
      stepIter cfg s (some img) 97 = some s' →
      ∃ wt wu, create_wh cfg s'.trnDir = some wt ∧
        create_wh cfg s'.tstDir = some wu ∧
        s'.trn_wh = encodeWh cfg wt ∧
        s'.tst_wh = encodeWh cfg wu ∧
        s'.engine = cfg.knn_fit (encodeWh cfg wt)) ∧
      ∀ (Img E Eng : Type) (cfg : Config Img E Eng) (s s' : SysState Img E Eng)
        (img i0 : Img) (f0 : Option Img) (u0 : Int),
      cfg.shape0 img ≠ 0 → cfg.shape1 img ≠ 0 → u0 ≠ -1 →
      faceLoop cfg s.engine (img, none, -1) (cfg.detect img) =
        some (i0, f0, u0) →
      stepIter cfg s (some img) 100 = some s' →
      ∃ wt wu, create_wh cfg s'.trnDir = some wt ∧
        create_wh cfg s'.tstDir = some wu ∧
        s'.trn_wh = encodeWh cfg wt ∧
        s'.tst_wh = encodeWh cfg wu ∧
        s'.engine = cfg.knn_fit (encodeWh cfg wt) := by
  constructor
  · intro Img E Eng cfg s s' img i0 face u0 hs0 hs1 hsel hstep
    simp only [stepIter, hsel] at hstep
    rw [if_neg (not_or.mpr ⟨hs0, hs1⟩)] at hstep
    norm_num at hstep
    split at hstep
    · exact Option.noConfusion hstep
    next name hfp =>
      split at hstep
      · exact Option.noConfusion hstep
      next t u hacq =>
        obtain rfl := Option.some.inj hstep
        simp only [acquire_data] at hacq
        split at hacq
        next wt wu hct hcu =>
          have h12 := Option.some.inj hacq
          rw [Prod.mk.injEq] at h12
          obtain ⟨rfl, rfl⟩ := h12
          exact ⟨wt, wu, hct, hcu, rfl, rfl, rfl⟩
        all_goals exact Option.noConfusion hacq
  · intro Img E Eng cfg s s' img i0 f0 u0 hs0 hs1 hu hsel hstep
    simp only [stepIter, hsel] at hstep
    rw [if_neg (not_or.mpr ⟨hs0, hs1⟩)] at hstep
    norm_num at hstep
    rw [if_neg hu] at hstep
    split at hstep
    · exact Option.noConfusion hstep
    next names hff =>
      split at hstep
      · exact Option.noConfusion hstep
      next dir' hrm =>
        split at hstep
        · exact Option.noConfusion hstep
        next t u hacq =>
          obtain rfl := Option.some.inj hstep
          simp only [acquire_data] at hacq
          split at hacq
          next wt wu hct hcu =>
            have h12 := Option.some.inj hacq
            rw [Prod.mk.injEq] at h12
            obtain ⟨rfl, rfl⟩ := h12
            exact ⟨wt, wu, hct, hcu, rfl, rfl, rfl⟩
          all_goals exact Option.noConfusion hacq

/-- Witness for claim C1: a concrete enroll step whose resulting state is
exactly the reacquired-and-refitted one. -/
theorem C1_mutation_reacquire_refit_witness :
    demoCfg.shape0 42 ≠ 0 ∧ demoCfg.shape1 42 ≠ 0 ∧
      faceLoop demoCfg demoState.engine ((42 : Nat), none, -1)
        (demoCfg.detect 42) = some (42, some 42, 0) ∧
      ∃ s', stepIter demoCfg demoState (some 42) 97 = some s' ∧
        ∃ wt wu, create_wh demoCfg s'.trnDir = some wt ∧
          create_wh demoCfg s'.tstDir = some wu ∧
          s'.trn_wh = encodeWh demoCfg wt ∧
          s'.tst_wh = encodeWh demoCfg wu ∧
          s'.engine = demoCfg.knn_fit (encodeWh demoCfg wt) :=
  ⟨by decide, by decide, rfl,
    ⟨_, rfl,
      C1_mutation_reacquire_refit.1 Nat Unit (List Int) demoCfg demoState _
        42 42 42 0 (by decide) (by decide) rfl rfl⟩⟩

lemma stepIter_stop_release {Img E Eng : Type} (cfg : Config Img E Eng)
    (s s' : SysState Img E Eng) (frame : Option Img) (key : Int)
    (h : stepIter cfg s frame key = some s') :
    (s'.stopped = s.stopped ∧ s'.releaseCalls = s.releaseCalls) ∨
      (key = 27 ∧ s'.stopped = true ∧ s'.releaseCalls = s.releaseCalls + 1) := by
  cases frame with
  | none =>
    obtain rfl := Option.some.inj h
    exact Or.inl ⟨rfl, rfl⟩
  | some image =>
    simp only [stepIter] at h
    by_cases hsh : cfg.shape0 image = 0 ∨ cfg.shape1 image = 0
    · rw [if_pos hsh] at h
      obtain rfl := Option.some.inj h
      exact Or.inl ⟨rfl, rfl⟩
    · rw [if_neg hsh] at h
      split at h
      · exact Option.noConfusion h
      next i0 f0 u0 heq =>
        by_cases h27 : key = 27
        · rw [if_pos h27] at h
          obtain rfl := Option.some.inj h
          exact Or.inr ⟨h27, rfl, rfl⟩
        · rw [if_neg h27] at h
          refine Or.inl ?_
          by_cases h115 : key = 115
          · rw [if_pos h115] at h
            obtain rfl := Option.some.inj h
            exact ⟨rfl, rfl⟩
          · rw [if_neg h115] at h
            by_cases h97 : key = 97
            · rw [if_pos h97] at h
              split at h
              · obtain rfl := Option.some.inj h
                exact ⟨rfl, rfl⟩
              next face =>
                split at h
                · exact Option.noConfusion h
                next name hfp =>
                  split at h
                  · exact Option.noConfusion h
                  next t u hacq =>
                    obtain rfl := Option.some.inj h
                    exact ⟨rfl, rfl⟩
            · rw [if_neg h97] at h
              by_cases h100 : key = 100
              · rw [if_pos h100] at h
                by_cases hu : u0 = -1
                · rw [if_pos hu] at h
                  obtain rfl := Option.some.inj h
                  exact ⟨rfl, rfl⟩
                · rw [if_neg hu] at h
                  split at h
                  · exact Option.noConfusion h
                  next names hff =>
                    split at h
                    · exact Option.noConfusion h
                    next dir' hrm =>
                      split at h
                      · exact Option.noConfusion h
                      next t u hacq =>
                        obtain rfl := Option.some.inj h
                        exact ⟨rfl, rfl⟩
              · rw [if_neg h100] at h
                obtain rfl := Option.some.inj h
                exact ⟨rfl, rfl⟩

lemma runLoop_of_stopped {Img E Eng : Type} (cfg : Config Img E Eng)
    (s : SysState Img E Eng) (trace : List (Option Img × Int))
    (h : s.stopped = true) : runLoop cfg s trace = some s := by
  cases trace with
  | nil => rfl
  | cons p rest =>
    obtain ⟨f, k⟩ := p
    simp [runLoop, h]

/-- Claim C8: the session loop stops only via the ESC key, and on that
terminal path `release()` is called exactly once before the loop stops; no
other branch of the loop calls `release()` or stops the loop. -/
theorem C8_terminate_only_via_escape :
    ∀ (Img E Eng : Type) (cfg : Config Img E Eng)
      (s0 sf : SysState Img E Eng) (trace : List (Option Img × Int)),
      s0.stopped = false → s0.releaseCalls = 0 →
      runLoop cfg s0 trace = some sf →
      (sf.stopped = true →
        sf.releaseCalls = 1 ∧
          ∃ frame : Option Img, (frame, (27 : Int)) ∈ trace) ∧
        (sf.stopped = false → sf.releaseCalls = 0) := by
  intro Img E Eng cfg s0 sf trace
  induction trace generalizing s0 with
  | nil =>
    intro h1 h2 h3
    obtain rfl := Option.some.inj h3
    refine ⟨fun hc => ?_, fun _ => h2⟩
    rw [h1] at hc
    exact Bool.noConfusion hc
  | cons p rest ih =>
    obtain ⟨f, k⟩ := p
    intro h1 h2 h3
    rw [runLoop] at h3
    rw [if_neg (by rw [h1]; exact Bool.false_ne_true)] at h3
    cases hst : stepIter cfg s0 f k with
    | none => rw [hst] at h3; exact Option.noConfusion h3
    | some s1 =>
      rw [hst] at h3
      rcases stepIter_stop_release cfg s0 s1 f k hst with
        ⟨hstop, hrc⟩ | ⟨hk, hstop, hrc⟩
      · have hrec := ih s1 (by rw [hstop, h1]) (by rw [hrc, h2]) h3
        refine ⟨fun hsf => ?_, hrec.2⟩
        obtain ⟨ha, frame, hmem⟩ := hrec.1 hsf
        exact ⟨ha, frame, List.mem_cons_of_mem _ hmem⟩
      · subst hk
        have h3' : runLoop cfg s1 rest = some sf := h3
        rw [runLoop_of_stopped cfg s1 rest hstop] at h3'
        obtain rfl := Option.some.inj h3'
        refine ⟨fun _ => ⟨by rw [hrc, h2], f, List.mem_cons_self _ _⟩,
          fun hns => ?_⟩
        rw [hstop] at hns
        exact Bool.noConfusion hns

/-- Witness for claim C8: a one-step trace ending with ESC stops the loop
with exactly one `release()` call. -/
theorem C8_terminate_only_via_escape_witness :
    demoState.stopped = false ∧ demoState.releaseCalls = 0 ∧
      ∃ sf, runLoop demoCfg demoState [(some 5, (27 : Int))] = some sf ∧
        ((sf.stopped = true →
          sf.releaseCalls = 1 ∧
            ∃ frame : Option Nat, (frame, (27 : Int)) ∈ [(some 5, (27 : Int))]) ∧
          (sf.stopped = false → sf.releaseCalls = 0)) :=
  ⟨rfl, rfl,
    ⟨_, rfl,
      C8_terminate_only_via_escape Nat Unit (List Int) demoCfg demoState _
        [(some 5, (27 : Int))] rfl rfl rfl⟩⟩

/-- Claim C9: after `acquire_data`, every warehouse sample's embedding
field holds the entire sequence returned by `encode([face.image])`, while
`id` and the per-frame loop classify `encode(...)[0]`, the first element —
so stored gallery embeddings and query embeddings sit at different nesting
levels of the encoder's output. -/
theorem C9_gallery_query_nesting_mismatch :
    (∀ (Img E Eng : Type) (cfg : Config Img E Eng) (dt du : Dir Img)
        (t u : Warehouse Img E),
      acquire_data cfg dt du = some (t, u) →
      (∀ f ∈ t.get_faces, f.embedding = some (cfg.encode [f.image])) ∧
        ∀ f ∈ u.get_faces, f.embedding = some (cfg.encode [f.image])) ∧
    (∀ (Img E Eng : Type) (cfg : Config Img E Eng) (eng : Eng) (img : Img)
        (e : E),
      (cfg.encode [cfg.process img]).head? = some e →
      PersonRec.id cfg eng img = some (cfg.knn_classify eng e)) ∧
    ∀ (Img E Eng : Type) (cfg : Config Img E Eng) (eng : Eng)
      (acc : Img × Option Img × Int) (bbox : BBox)
      (res : Img × Option Img × Int),
      faceStep cfg eng acc bbox = some res →
      ∃ e, (cfg.encode [cfg.process (cfg.crop acc.1 bbox)]).head? = some e ∧
        res.2.2 = cfg.knn_classify eng e := by
  refine ⟨?_, ?_, ?_⟩
  · intro Img E Eng cfg dt du t u hacq
    simp only [acquire_data] at hacq
    split at hacq
    next wt wu hct hcu =>
      have h12 := Option.some.inj hacq
      rw [Prod.mk.injEq] at h12
      obtain ⟨rfl, rfl⟩ := h12
      constructor <;>
      · intro f hf
        simp only [encodeWh, Warehouse.get_faces, List.mem_map] at hf
        obtain ⟨g, hg, rfl⟩ := hf
        rfl
    all_goals exact Option.noConfusion hacq
  · intro Img E Eng cfg eng img e he
    simp only [PersonRec.id]
    rw [he]
    rfl
  · intro Img E Eng cfg eng acc bbox res h
    simp only [faceStep] at h
    cases he : (cfg.encode [cfg.process (cfg.crop acc.1 bbox)]).head? with
    | none => rw [he] at h; exact Option.noConfusion h
    | some e =>
      rw [he] at h
      obtain rfl := Option.some.inj h
      exact ⟨e, rfl, rfl⟩

/-- Witness for claim C9: a concrete `acquire_data` run in which the stored
embedding is the whole (one-element) encoder output. -/
theorem C9_gallery_query_nesting_mismatch_witness :
    acquire_data demoCfg demoDirOne [] =
        some (⟨[⟨42, some [()], 0⟩]⟩, ⟨[]⟩) ∧
      ∀ f ∈ (Warehouse.mk ([⟨42, some [()], 0⟩] : List (Face Nat Unit))).get_faces,
        f.embedding = some (demoCfg.encode [f.image]) :=
  ⟨rfl,
    (C9_gallery_query_nesting_mismatch.1 Nat Unit (List Int) demoCfg demoDirOne
      [] ⟨[⟨42, some [()], 0⟩]⟩ ⟨[]⟩ rfl).1⟩

lemma entryFacesGo_eq (cfg : Config Img E Eng) (image : Img)
    (parts : List String) (label : Int)
    (hl : pyInt? (parts.headD "") = some label) :
    ∀ (bs : List BBox) (wh : Warehouse Img E),
      entryFacesGo cfg image parts wh bs =
        some ⟨wh.faces ++ bs.map (fun b =>
          ⟨cfg.process (cfg.crop image b), none, label⟩)⟩
  | [], wh => by
    simp [entryFacesGo]
  | b :: rest, wh => by
    simp only [entryFacesGo, hl]
    rw [entryFacesGo_eq cfg image parts label hl rest _]
    simp [Warehouse.add, List.append_assoc]

lemma create_wh_go_eq (cfg : Config Img E Eng) :
    ∀ (dir : Dir Img) (wh : Warehouse Img E),
      (∀ e ∈ dir, (splitDot e.1).getLastD "" = "jpg" → cfg.detect e.2 ≠ [] →
        (pyInt? ((splitDot e.1).headD "")).isSome = true) →
      create_wh_go cfg wh dir =
        some ⟨wh.faces ++ dir.flatMap (fun e =>
          if (splitDot e.1).getLastD "" = "jpg" then
            (cfg.detect e.2).map (fun b =>
              ⟨cfg.process (cfg.crop e.2 b), none,
                (pyInt? ((splitDot e.1).headD "")).getD 0⟩)
          else [])⟩
  | [], wh, _ => by
    simp [create_wh_go]
  | (name, image) :: rest, wh, h => by
    have hrest := fun e he => h e (List.mem_cons_of_mem _ he)
    have hhead := h (name, image) (List.mem_cons_self _ _)
    dsimp only [] at hhead
    simp only [create_wh_go]
    by_cases hjpg : (splitDot name).getLastD "" = "jpg"
    · rw [if_pos hjpg]
      by_cases hdet : cfg.detect image = []
      · rw [hdet]
        simp only [entryFacesGo]
        rw [create_wh_go_eq cfg rest wh hrest]
        rw [List.flatMap_cons]
        dsimp only []
        rw [if_pos hjpg, hdet, List.map_nil, List.nil_append]
      · have hsome := hhead hjpg hdet
        obtain ⟨label, hl⟩ := Option.isSome_iff_exists.mp hsome
        simp only [entryFacesGo_eq cfg image (splitDot name) label hl]
        rw [create_wh_go_eq cfg rest _ hrest]
        rw [List.flatMap_cons]
        dsimp only []
        rw [if_pos hjpg, hl, Option.getD_some, List.append_assoc]
    · rw [if_neg hjpg]
      rw [create_wh_go_eq cfg rest wh hrest]
      rw [List.flatMap_cons]
      dsimp only []
      rw [if_neg hjpg, List.nil_append]

/-- Claim C10: `create_wh` adds one sample per bounding box the detector
finds in each `.jpg` file, labelled with the integer value of the file
name's first dot-separated component; zero-detection files contribute no
samples and one file can contribute several, so the warehouse's per-uid
sample count can differ from the per-uid file count used by the allocator
and by deletion enumeration. -/
theorem C10_create_wh_per_bbox :
    (∀ (Img E Eng : Type) (cfg : Config Img E Eng) (dir : Dir Img),
      (∀ e ∈ dir, (splitDot e.1).getLastD "" = "jpg" → cfg.detect e.2 ≠ [] →
        (pyInt? ((splitDot e.1).headD "")).isSome = true) →
      create_wh cfg dir =
        some ⟨dir.flatMap (fun e =>
          if (splitDot e.1).getLastD "" = "jpg" then
            (cfg.detect e.2).map (fun b =>
              ⟨cfg.process (cfg.crop e.2 b), none,
                (pyInt? ((splitDot e.1).headD "")).getD 0⟩)
          else [])⟩) ∧
      ∃ wh : Warehouse Nat Unit,
        create_wh demoCfgTwo demoDirOne = some wh ∧
        (wh.get_faces.filter (fun f => f.uid == 0)).length = 2 ∧
        count_samples demoDirOne 0 = some 1 := by
  constructor
  · intro Img E Eng cfg dir h
    unfold create_wh
    rw [create_wh_go_eq cfg dir ⟨[]⟩ h]
    rfl
  · exact ⟨⟨[⟨42, none, 0⟩, ⟨42, none, 0⟩]⟩, rfl, rfl, rfl⟩

/-- Witness for claim C10: the per-bounding-box formula evaluated on a
concrete directory of three files of uid 1. -/
theorem C10_create_wh_per_bbox_witness :
    (∀ e ∈ dir3jpg, (splitDot e.1).getLastD "" = "jpg" →
        demoCfg.detect e.2 ≠ [] →
        (pyInt? ((splitDot e.1).headD "")).isSome = true) ∧
      create_wh demoCfg dir3jpg =
        some ⟨[⟨7, none, 1⟩, ⟨8, none, 1⟩, ⟨9, none, 1⟩]⟩ :=
  ⟨by decide,
    (C10_create_wh_per_bbox.1 Nat Unit (List Int) demoCfg dir3jpg
      (by decide)).trans rfl⟩

end PersonRec
